import Mathlib

/-
Verification of the tfpp Terraform provider packager (src/main.go).

The pure core of the program is shallowly embedded below.  Effectful Go code
is modelled by explicit data:
  * file writes become an ordered list of (path, content) pairs;
  * HTTP fetches become an explicit network environment value;
  * a Go runtime panic (index out of range, nil dereference) becomes the
    distinguished result GoResult.panicked;
  * a returned non-nil Go error becomes an errored flag on the result.

Go splitting (strings.Split) is re-implemented over character lists with
fuel-based structural recursion so that the kernel can evaluate it on
concrete inputs.
-/

/-- Worker for goSplit: scans the character list left to right, emitting the
accumulated field whenever the separator occurs (non-overlapping, leftmost
first), exactly like Go strings.Split with a non-empty separator.  The fuel
argument only forces structural termination; one character or more is
consumed per step, so fuel = length of the input never runs out. -/
def goSplitAux (sep : List Char) : Nat → List Char → List Char → List (List Char)
  | _, [], cur => [cur.reverse]
  | 0, rest, cur => [cur.reverse ++ rest]
  | fuel+1, c :: cs, cur =>
    if sep ≠ [] ∧ (c :: cs).take sep.length = sep then
      cur.reverse :: goSplitAux sep fuel ((c :: cs).drop sep.length) []
    else
      goSplitAux sep fuel cs (c :: cur)

/-- Model of Go strings.Split s sep for a non-empty separator: the list of
substrings of s between non-overlapping occurrences of sep.  Always returns
a non-empty list; goSplit "" sep = [""], matching Go. -/
def goSplit (s sep : String) : List String :=
  (goSplitAux sep.data s.data.length s.data []).map String.mk

/-- Outcome of running a piece of Go code that can panic at runtime
(index out of range, nil pointer dereference).  A panic produces no return
value at all, unlike a returned error value. -/
inductive GoResult (α : Type) where
  | ok : α → GoResult α
  | panicked : GoResult α
deriving DecidableEq

/-- Platform from src/main.go: an (os, arch) pair. -/
structure Platform where
  os : String
  arch : String
deriving DecidableEq

/-- Version from src/main.go: one record of the version history. -/
structure Version where
  version : String
  protocols : List String
  platforms : List Platform
deriving DecidableEq

/-- Versions from src/main.go: the version-history document. -/
structure Versions where
  versions : List Version
deriving DecidableEq

/-- WellKnown from src/main.go: the discovery document. -/
structure WellKnown where
  providersV1 : String
  modulesV1 : String
deriving DecidableEq

/-- defaultWellKnownData from src/main.go. -/
def defaultWellKnownData : WellKnown :=
  { providersV1 := "/v1/providers/", modulesV1 := "/v1/modules/" }

/-- One element of SigningKeys.GpgPublicKeys in the Architecture struct of
src/main.go. -/
structure GpgPublicKey where
  keyId : String
  asciiArmor : String
  trustSignature : String
  source : String
  sourceUrl : String
deriving DecidableEq

/-- Architecture from src/main.go: the per-platform metadata document.
The Go struct nests the key list as SigningKeys.GpgPublicKeys; the
intermediate single-field wrapper is flattened here. -/
structure Architecture where
  protocols : List String
  os : String
  arch : String
  filename : String
  downloadUrl : String
  shasumsUrl : String
  shasumsSignatureUrl : String
  shasum : String
  gpgPublicKeys : List GpgPublicKey
deriving DecidableEq

/-- Content of a file written by the program, tagged by which document it
serializes (writeFile receives the indented JSON of these values). -/
inductive FileContent where
  | wellKnownJson : WellKnown → FileContent
  | versionsJson : Versions → FileContent
  | archJson : Architecture → FileContent
deriving DecidableEq

/-- Body of the loop in getShaSumContents (src/main.go lines 387-392):
lineSplit := strings.Split(line, "  "); row := {lineSplit[0], lineSplit[1]}.
Any field past the second is dropped by the Go code; a line whose split has
fewer than two fields makes the index expression lineSplit[1] panic. -/
def parseShaLine (line : String) : GoResult (String × String) :=
  match goSplit line "  " with
  | checksum :: fileName :: _ => .ok (checksum, fileName)
  | _ => .panicked

/-- Pure core of getShaSumContents (src/main.go lines 376-395) applied to the
lines of the checksum-manifest file: parses each line in order; a panic on
any line aborts the whole call.  Failure to open the file is handled by the
caller models (manifest passed as Option). -/
def getShaSumContents : List String → GoResult (List (String × String))
  | [] => .ok []
  | line :: rest =>
    match parseShaLine line with
    | .panicked => .panicked
    | .ok row =>
      match getShaSumContents rest with
      | .panicked => .panicked
      | .ok rows => .ok (row :: rows)

/-- Underscore-delimited tokens of the filename stem, as computed identically
at src/main.go lines 182-183 and 431-432: strings.Split(fileName, ".zip")[0]
is the prefix of fileName before the first occurrence of ".zip" (goSplit
never returns an empty list, so headD never falls back), then that stem is
split on "_". -/
def stemTokens (fileName : String) : List String :=
  goSplit ((goSplit fileName ".zip").headD "") "_"

/-- Platform extraction shared verbatim by the two loops of src/main.go
(lines 182-196 and 431-440): fewer than 4 stem tokens means the entry is
skipped (continue), otherwise token 2 is the os and token 3 the arch. -/
def extractPlatform (fileName : String) : Option Platform :=
  if (stemTokens fileName).length < 4 then none
  else some { os := (stemTokens fileName).getD 2 "", arch := (stemTokens fileName).getD 3 "" }

/-- Platform-accumulation loop of createVersionsFile (src/main.go lines
179-198): ver.Platforms starts empty and each recognized entry is appended. -/
def buildPlatforms (rows : List (String × String)) : List Platform :=
  rows.foldl
    (fun acc row =>
      match extractPlatform row.2 with
      | none => acc
      | some plat => acc ++ [plat])
    []

/-- The newly built VersionRecord of createVersionsFile (src/main.go lines
171-198): fixed protocols ["4.0", "5.1"] and the platforms extracted from the
parsed manifest rows. -/
def newVersionRecord (version : String) (rows : List (String × String)) : Version :=
  { version := version, protocols := ["4.0", "5.1"], platforms := buildPlatforms rows }

/-- Merge loop of createVersionsFile (src/main.go lines 176-213):
vers.Versions starts empty; each remote record is appended only when no
record already in vers.Versions has the same version string; finally the new
record is appended with no check at all. -/
def mergeVersions (registry : Versions) (ver : Version) : Versions :=
  ⟨(registry.versions.foldl
      (fun acc v =>
        if acc.any (fun existing => existing.version == v.version) then acc
        else acc ++ [v])
      []) ++ [ver]⟩

/-- Result of one HTTP GET in the model: either a transport error (the Go
err return is non-nil, in which case Go never looks at resp), or a response
carrying a status code, a flag telling whether io.ReadAll of the body fails,
and the body text. -/
inductive GetResult where
  | transportErr : GetResult
  | resp (statusCode : Nat) (readErr : Bool) (body : String) : GetResult

/-- Network environment of downloadVersionsFile: the outcome of the
well-known fetch, the outcome of the versions fetch keyed by the requested
URL, and the behavior of json.Unmarshal on each body. -/
structure Net where
  wellKnownGet : GetResult
  decodeWellKnown : String → Option WellKnown
  versionsGet : String → GetResult
  decodeVersions : String → Option Versions

/-- Return value of the downloadVersionsFile model: the two returned
documents, whether the Go error return was non-nil, and the file writes the
call performed. -/
structure DVFOut where
  versions : Versions
  wellKnown : WellKnown
  errored : Bool
  writes : List (String × FileContent)
deriving DecidableEq

/-- Path of the eager fallback write in downloadVersionsFile (src/main.go
line 253): "release/" + ".well-known/terraform.json". -/
def wellKnownFallbackPath : String := "release/" ++ ".well-known/terraform.json"

/-- Model of downloadVersionsFile (src/main.go lines 236-298).  Branches, in
source order: a transport error on the well-known fetch logs err.Error()
(err is non-nil, fine), writes the default discovery document to the
fallback path and returns it with an empty history and an error; a non-200
status with a nil transport error evaluates err.Error() on a nil interface
at line 243 and panics before any write; a body-read failure or an
unmarshal failure returns the default document, an empty history and an
error with no write; after a successful decode the versions URL is fetched,
where every failure (transport error, non-200 status, read failure,
unmarshal failure) returns an empty history with the fetched discovery
document and an error (the log there formats err with %s and does not
panic); full success returns the decoded history. -/
def downloadVersionsFile (net : Net) (ns provider domain : String) : GoResult DVFOut :=
  match net.wellKnownGet with
  | .transportErr =>
    .ok ⟨⟨[]⟩, defaultWellKnownData, true,
      [(wellKnownFallbackPath, .wellKnownJson defaultWellKnownData)]⟩
  | .resp status readErr body =>
    if status = 200 then
      if readErr then .ok ⟨⟨[]⟩, defaultWellKnownData, true, []⟩
      else
        match net.decodeWellKnown body with
        | none => .ok ⟨⟨[]⟩, defaultWellKnownData, true, []⟩
        | some wellKnownData =>
          match net.versionsGet ("https://" ++ domain ++ wellKnownData.providersV1 ++ ns ++ "/" ++ provider ++ "/versions") with
          | .transportErr => .ok ⟨⟨[]⟩, wellKnownData, true, []⟩
          | .resp status2 readErr2 body2 =>
            if status2 = 200 then
              if readErr2 then .ok ⟨⟨[]⟩, wellKnownData, true, []⟩
              else
                match net.decodeVersions body2 with
                | none => .ok ⟨⟨[]⟩, wellKnownData, true, []⟩
                | some versionsData => .ok ⟨versionsData, wellKnownData, false, []⟩
            else .ok ⟨⟨[]⟩, wellKnownData, true, []⟩
    else .panicked

/-- Path the merged version history is written to, from src/main.go line 164:
fmt.Sprintf("%s%s%s/%s/versions", "release", wellKnownData.ProvidersV1,
namespace, provider).  Note that no version segment occurs in it. -/
def versionsFilePath (ns provider : String) (wk : WellKnown) : String :=
  "release" ++ wk.providersV1 ++ ns ++ "/" ++ provider ++ "/versions"

/-- Return value of the createVersionsFile model: the discovery document it
passes back, the file writes performed (including those of the nested
downloadVersionsFile call), and whether an error was returned. -/
structure CVFOut where
  wellKnown : WellKnown
  writes : List (String × FileContent)
  errored : Bool
deriving DecidableEq

/-- Model of createVersionsFile (src/main.go lines 161-234).  The error of
downloadVersionsFile is discarded (blank identifier), but a panic inside it
propagates.  The manifest argument is the line list of the checksum file,
none when the file cannot be opened (in which case the function returns the
error without writing the versions file).  On success the merged history is
written at versionsFilePath. -/
def createVersionsFile (net : Net) (ns provider version domain : String)
    (manifest : Option (List String)) : GoResult CVFOut :=
  match downloadVersionsFile net ns provider domain with
  | .panicked => .panicked
  | .ok dvf =>
    match manifest with
    | none => .ok ⟨dvf.wellKnown, dvf.writes, true⟩
    | some lines =>
      match getShaSumContents lines with
      | .panicked => .panicked
      | .ok rows =>
        .ok ⟨dvf.wellKnown,
          dvf.writes ++
            [(versionsFilePath ns provider dvf.wellKnown,
              .versionsJson (mergeVersions dvf.versions (newVersionRecord version rows)))],
          false⟩

/-- Concatenation of the GPG public-key file lines at src/main.go lines
420-423: each line followed by a newline. -/
def gpgArmor (gpgLines : List String) : String :=
  gpgLines.foldl (fun acc line => acc ++ line ++ "\n") ""

/-- Path of the architecture file for one platform, from src/main.go lines
400-405 and 442: release + providersPath + ns + "/" + provider + "/" +
version + "/" + "download/" + os + "/" + arch. -/
def archPath (ns provider version : String) (wk : WellKnown) (plat : Platform) : String :=
  "release" ++ (wk.providersV1 ++ ns ++ "/" ++ provider ++ "/" ++ version ++ "/") ++
    "download/" ++ plat.os ++ "/" ++ plat.arch

/-- Body of the emission loop of createArchitectureFiles (src/main.go lines
425-479) for a single parsed manifest row, with the loop-invariant prefixes
of lines 400-408 inlined (they are pure): none when the entry is skipped,
otherwise the write path and the Architecture document. -/
def archEmit (ns provider repoName version gpgFingerprint domain : String)
    (wk : WellKnown) (armor : String) (row : String × String) :
    Option (String × Architecture) :=
  match extractPlatform row.2 with
  | none => none
  | some plat =>
    some (archPath ns provider version wk plat,
      { protocols := ["4.0", "5.1"],
        os := plat.os,
        arch := plat.arch,
        filename := row.2,
        downloadUrl :=
          ("https://" ++ domain ++ (wk.providersV1 ++ ns ++ "/" ++ provider ++ "/" ++ version ++ "/")) ++
            "download/" ++ row.2,
        shasumsUrl :=
          ("https://" ++ domain ++ (wk.providersV1 ++ ns ++ "/" ++ provider ++ "/" ++ version ++ "/")) ++
            (repoName ++ "_" ++ version ++ "_SHA256SUMS"),
        shasumsSignatureUrl :=
          ("https://" ++ domain ++ (wk.providersV1 ++ ns ++ "/" ++ provider ++ "/" ++ version ++ "/")) ++
            (repoName ++ "_" ++ version ++ "_SHA256SUMS") ++ ".sig",
        shasum := row.1,
        gpgPublicKeys := [⟨gpgFingerprint, armor, "", "", ""⟩] })

/-- Emission loop of createArchitectureFiles over the parsed manifest rows:
writes are performed in manifest order, skipped entries contribute nothing
and the loop continues. -/
def archFiles (ns provider repoName version gpgFingerprint domain : String)
    (wk : WellKnown) (armor : String) (rows : List (String × String)) :
    List (String × Architecture) :=
  rows.foldl
    (fun acc row =>
      match archEmit ns provider repoName version gpgFingerprint domain wk armor row with
      | none => acc
      | some w => acc ++ [w])
    []

/-- Return value of the createArchitectureFiles model: the file writes
performed and whether an error was returned. -/
structure ArchOut where
  writes : List (String × FileContent)
  errored : Bool
deriving DecidableEq

/-- Model of createArchitectureFiles (src/main.go lines 397-482): re-parses
the manifest with getShaSumContents (an unreadable file returns the error
with no writes, a malformed line panic propagates), concatenates the GPG
key lines (an unreadable key file is a fatal log.Fatalf exit, modelled
outside by handing the line list in), and emits one architecture file per
recognized entry in manifest order. -/
def createArchitectureFiles (ns provider repoName version gpgFingerprint domain : String)
    (wk : WellKnown) (manifest : Option (List String)) (gpgLines : List String) :
    GoResult ArchOut :=
  match manifest with
  | none => .ok ⟨[], true⟩
  | some lines =>
    match getShaSumContents lines with
    | .panicked => .panicked
    | .ok rows =>
      .ok ⟨(archFiles ns provider repoName version gpgFingerprint domain wk
            (gpgArmor gpgLines) rows).map (fun w => (w.1, .archJson w.2)), false⟩

/-- Final content a sequence of writeFile calls leaves at a path: the last
write targeting that path wins, none when no write targets it. -/
def finalContent (writes : List (String × Architecture)) (path : String) :
    Option Architecture :=
  ((writes.filter (fun w => w.1 == path)).getLast?).map (fun w => w.2)

/-- Specification-side first-seen deduplication, transcribed from the words
of the merge claim: walk the remote records in order carrying the set of
version strings already retained; keep a record only when its version string
has not been seen, in which case its version string is added to the seen
set.  Remote order is preserved and remote duplicates collapse to the first
occurrence. -/
def keepFirstByVersion (seen : List String) : List Version → List Version
  | [] => []
  | v :: rest =>
    if seen.contains v.version then keepFirstByVersion seen rest
    else v :: keepFirstByVersion (v.version :: seen) rest

/-- Specification-side description of the ASCII-armor assembly: the key file
lines concatenated with each line followed by a newline. -/
def armorSpec : List String → String
  | [] => ""
  | line :: rest => line ++ "\n" ++ armorSpec rest

/-- Concrete network environment whose well-known fetch fails with a
transport error. -/
def errNet : Net :=
  { wellKnownGet := .transportErr,
    decodeWellKnown := fun _ => none,
    versionsGet := fun _ => .transportErr,
    decodeVersions := fun _ => none }

/-- Concrete network environment whose well-known fetch returns HTTP 404
with a nil transport error. -/
def non200Net : Net :=
  { wellKnownGet := .resp 404 false "",
    decodeWellKnown := fun _ => none,
    versionsGet := fun _ => .transportErr,
    decodeVersions := fun _ => none }

/-- Concrete network environment whose well-known fetch returns HTTP 200
with a body that json.Unmarshal rejects. -/
def badBodyNet : Net :=
  { wellKnownGet := .resp 200 false "not-json",
    decodeWellKnown := fun _ => none,
    versionsGet := fun _ => .transportErr,
    decodeVersions := fun _ => none }

/-- The platform loop of createVersionsFile keeps exactly the recognized
entries, in manifest order, for any starting accumulator. -/
theorem buildPlatforms_loop (rows : List (String × String)) :
    ∀ acc : List Platform,
      rows.foldl
        (fun acc row =>
          match extractPlatform row.2 with
          | none => acc
          | some plat => acc ++ [plat])
        acc
        = acc ++ rows.filterMap (fun row => extractPlatform row.2) := by
  induction rows with
  | nil => intro acc; simp
  | cons r rest ih =>
    intro acc
    simp only [List.foldl_cons, List.filterMap_cons]
    cases h : extractPlatform r.2 with
    | none => simp only [h, ih]
    | some b => simp only [h, ih (acc ++ [b]), List.append_assoc, List.singleton_append]

/-- buildPlatforms in closed form. -/
theorem buildPlatforms_eq_filterMap (rows : List (String × String)) :
    buildPlatforms rows = rows.filterMap (fun row => extractPlatform row.2) := by
  unfold buildPlatforms
  simpa using buildPlatforms_loop rows []

/-- The emission loop of createArchitectureFiles keeps exactly the
recognized entries, in manifest order, for any starting accumulator. -/
theorem archFiles_loop (ns provider repoName version gpgFingerprint domain : String)
    (wk : WellKnown) (armor : String) (rows : List (String × String)) :
    ∀ acc : List (String × Architecture),
      rows.foldl
        (fun acc row =>
          match archEmit ns provider repoName version gpgFingerprint domain wk armor row with
          | none => acc
          | some w => acc ++ [w])
        acc
        = acc ++ rows.filterMap (archEmit ns provider repoName version gpgFingerprint domain wk armor) := by
  induction rows with
  | nil => intro acc; simp
  | cons r rest ih =>
    intro acc
    simp only [List.foldl_cons, List.filterMap_cons]
    cases h : archEmit ns provider repoName version gpgFingerprint domain wk armor r with
    | none => simp only [h, ih]
    | some b => simp only [h, ih (acc ++ [b]), List.append_assoc, List.singleton_append]

/-- archFiles in closed form. -/
theorem archFiles_eq_filterMap (ns provider repoName version gpgFingerprint domain : String)
    (wk : WellKnown) (armor : String) (rows : List (String × String)) :
    archFiles ns provider repoName version gpgFingerprint domain wk armor rows
      = rows.filterMap (archEmit ns provider repoName version gpgFingerprint domain wk armor) := by
  unfold archFiles
  simpa using archFiles_loop ns provider repoName version gpgFingerprint domain wk armor rows []

/-- The record-against-retained-records test of the Go merge loop agrees
with membership of the version string among the retained version strings. -/
theorem any_version_eq_contains (acc : List Version) (s : String) :
    acc.any (fun existing => existing.version == s) = (acc.map Version.version).contains s := by
  induction acc with
  | nil => rfl
  | cons v rest ih =>
    simp only [List.any_cons, List.map_cons, List.contains_cons, ih]
    congr 1
    simp [eq_comm]

/-- keepFirstByVersion only looks at membership in the seen set, not at its
order or multiplicity. -/
theorem keepFirstByVersion_congr (l : List Version) :
    ∀ seen seen' : List String, (∀ s, seen.contains s = seen'.contains s) →
      keepFirstByVersion seen l = keepFirstByVersion seen' l := by
  induction l with
  | nil => intros; rfl
  | cons v rest ih =>
    intro seen seen' h
    simp only [keepFirstByVersion, h v.version]
    by_cases hc : (seen'.contains v.version) = true
    · simp only [hc, if_true]
      exact ih seen seen' h
    · simp only [hc, if_false]
      refine congrArg (v :: ·) (ih _ _ ?_)
      intro s
      simp only [List.contains_cons, h s]

/-- One step of the Go merge loop when the version string is already
retained. -/
theorem merge_step_pos (acc : List Version) (v : Version)
    (h : ((acc.map Version.version).contains v.version) = true) :
    (if acc.any (fun existing => existing.version == v.version) then acc else acc ++ [v]) = acc := by
  rw [any_version_eq_contains, h]
  simp

/-- One step of the Go merge loop when the version string is new. -/
theorem merge_step_neg (acc : List Version) (v : Version)
    (h : ((acc.map Version.version).contains v.version) = false) :
    (if acc.any (fun existing => existing.version == v.version) then acc else acc ++ [v])
      = acc ++ [v] := by
  rw [any_version_eq_contains, h]
  simp

/-- The Go merge loop over the remote records equals the specification-side
first-seen deduplication, for any starting accumulator. -/
theorem merge_foldl_eq_keepFirst (l : List Version) :
    ∀ acc : List Version,
      l.foldl
        (fun acc v =>
          if acc.any (fun existing => existing.version == v.version) then acc
          else acc ++ [v])
        acc
        = acc ++ keepFirstByVersion (acc.map Version.version) l := by
  induction l with
  | nil => intro acc; simp [keepFirstByVersion]
  | cons v rest ih =>
    intro acc
    simp only [List.foldl_cons]
    by_cases hc : ((acc.map Version.version).contains v.version) = true
    · rw [merge_step_pos acc v hc, ih acc]
      simp only [keepFirstByVersion]
      rw [if_pos hc]
    · have hcf : ((acc.map Version.version).contains v.version) = false := by
        cases hB : ((acc.map Version.version).contains v.version)
        · rfl
        · exact absurd hB hc
      rw [merge_step_neg acc v hcf, ih (acc ++ [v])]
      have hseen : ∀ s, (((acc ++ [v]).map Version.version).contains s)
          = ((v.version :: acc.map Version.version).contains s) := by
        intro s
        simp [List.mem_append, or_comm]
      rw [keepFirstByVersion_congr rest _ _ hseen]
      simp only [keepFirstByVersion]
      rw [if_neg hc]
      simp [List.append_assoc]

/-- The armor loop of createArchitectureFiles equals the specification-side
newline-joined key, for any starting accumulator. -/
theorem gpgArmor_loop (lines : List String) :
    ∀ acc : String,
      lines.foldl (fun acc line => acc ++ line ++ "\n") acc = acc ++ armorSpec lines := by
  induction lines with
  | nil => intro acc; simp [armorSpec]
  | cons l rest ih =>
    intro acc
    simp only [List.foldl_cons]
    rw [ih (acc ++ l ++ "\n")]
    simp [armorSpec, String.append_assoc]

/-- gpgArmor in closed form: every key file line followed by a newline. -/
theorem gpgArmor_eq_armorSpec (lines : List String) : gpgArmor lines = armorSpec lines := by
  unfold gpgArmor
  simpa using gpgArmor_loop lines ""

/-- Merging the two adjacent literals of the download segment. -/
theorem slash_download_merge (t : String) :
    ("/" : String) ++ ("download/" ++ t) = "/download/" ++ t := by
  rw [← String.append_assoc]; rfl

/-- Inversion for archEmit: an emitted write comes from a recognized
platform and targets the path of that platform. -/
theorem archEmit_inv (ns provider repoName version gpgFingerprint domain : String)
    (wk : WellKnown) (armor : String) (row : String × String) (w : String × Architecture)
    (h : archEmit ns provider repoName version gpgFingerprint domain wk armor row = some w) :
    ∃ q, extractPlatform row.2 = some q ∧ w.1 = archPath ns provider version wk q := by
  unfold archEmit at h
  cases hq : extractPlatform row.2 with
  | none => rw [hq] at h; exact absurd h (by simp)
  | some q =>
    rw [hq] at h
    refine ⟨q, rfl, ?_⟩
    cases h
    rfl

/-- The last element of a filtered write list when the list splits into a
part X, one passing write w, and a tail Y with no passing write. -/
theorem getLast_filter_split {α : Type} (p : α → Bool) (X : List α) (w : α) (Y : List α)
    (hw : p w = true) (hY : ∀ u ∈ Y, p u = false) :
    ((X ++ w :: Y).filter p).getLast? = some w := by
  have hYf : Y.filter p = [] := by
    rw [List.filter_eq_nil_iff]
    intro u hu
    simp [hY u hu]
  rw [List.filter_append, List.filter_cons_of_pos hw, hYf]
  exact List.getLast?_concat _

/-- C1: the merge performed by createVersionsFile keeps each remote record
only if no earlier-retained record has the same version string (first-seen
wins, remote order preserved, remote duplicates collapse to the first
occurrence) and then appends the new record unconditionally, without
checking whether its version string already occurs: the output sequence
equals the first-seen-deduplicated remote sequence followed by exactly one
copy of the new record, even when the new version string already appears in
the remote history. -/
theorem c1_merge_first_seen_then_append (registry : Versions) (ver : Version) :
    mergeVersions registry ver = ⟨keepFirstByVersion [] registry.versions ++ [ver]⟩ := by
  unfold mergeVersions
  rw [merge_foldl_eq_keepFirst registry.versions []]
  simp

/-- C2, code evaluated at the failing inputs: the checksum-manifest parser
panics with an index out of range on a line without the two-space separator
(including an empty line) instead of raising a MalformedManifestLine error,
and on a line containing two separators it keeps only the first two fields
instead of splitting on the first occurrence only (which would keep
"file  extra" as the filename). -/
theorem c2_parser_panics_on_malformed_line :
    getShaSumContents ["README.txt"] = .panicked ∧
    getShaSumContents [""] = .panicked ∧
    getShaSumContents ["aaa  terraform-provider-example_1.0.0_linux_amd64.zip"]
      = .ok [("aaa", "terraform-provider-example_1.0.0_linux_amd64.zip")] ∧
    getShaSumContents ["aaa  file  extra"] = .ok [("aaa", "file")] :=
  ⟨rfl, rfl, rfl, rfl⟩

/-- C3, code evaluated at the failing input: a discovery fetch answered with
HTTP 404 and a nil transport error makes downloadVersionsFile panic, by
calling err.Error() on the nil error interface at src/main.go line 243,
before any fallback value is produced or written; only a genuine transport
error reaches the documented fallback, which does return the default
DiscoveryDocument with an empty version history and write a copy of it to
release/.well-known/terraform.json. -/
theorem c3_non200_panics_instead_of_fallback :
    downloadVersionsFile non200Net "exampleorg" "example" "registry.example.com" = .panicked ∧
    downloadVersionsFile errNet "exampleorg" "example" "registry.example.com"
      = .ok ⟨⟨[]⟩, defaultWellKnownData, true,
          [(wellKnownFallbackPath, .wellKnownJson defaultWellKnownData)]⟩ :=
  ⟨rfl, rfl⟩

/-- C9: when the discovery fetch returns a non-200 status while the
transport error is nil, downloadVersionsFile dereferences the nil error in
its fallback branch and panics before returning the default
DiscoveryDocument, so the fallback path is reached panic-free only when the
failure is a transport error. -/
theorem c9_nil_error_dereference (net : Net) (ns provider domain : String) :
    (∀ status readErr body, net.wellKnownGet = .resp status readErr body → status ≠ 200 →
      downloadVersionsFile net ns provider domain = .panicked) ∧
    (net.wellKnownGet = .transportErr →
      downloadVersionsFile net ns provider domain ≠ .panicked) := by
  constructor
  · intro status readErr body h hne
    unfold downloadVersionsFile
    rw [h]
    simp [hne]
  · intro h
    unfold downloadVersionsFile
    rw [h]
    simp

/-- Witness for C9 at a concrete 404 response and a concrete transport
error. -/
theorem c9_nil_error_dereference_witness :
    downloadVersionsFile non200Net "exampleorg" "example" "registry.example.com" = .panicked ∧
    downloadVersionsFile errNet "exampleorg" "example" "registry.example.com" ≠ .panicked :=
  ⟨(c9_nil_error_dereference non200Net "exampleorg" "example" "registry.example.com").1
      404 false "" rfl (by decide),
   (c9_nil_error_dereference errNet "exampleorg" "example" "registry.example.com").2 rfl⟩

/-- C4 counterexample: a 200 discovery response whose body fails to parse
makes downloadVersionsFile fall back to the default DiscoveryDocument and
an empty history, but its write list is empty: the claimed eager write of
the default document to release/.well-known/terraform.json does not happen
in the malformed-body case. -/
theorem c4_counterexample :
    downloadVersionsFile badBodyNet "exampleorg" "example" "registry.example.com"
      = .ok ⟨⟨[]⟩, defaultWellKnownData, true, []⟩ ∧
    ([] : List (String × FileContent))
      ≠ [(wellKnownFallbackPath, .wellKnownJson defaultWellKnownData)] :=
  ⟨rfl, by decide⟩

/-- C4 as amended: only the transport-error failure of the discovery fetch
both falls back to the default DiscoveryDocument with an empty history and
eagerly writes the default document to release/.well-known/terraform.json;
a 200 response with a malformed body falls back to the default document and
an empty history but performs no write; a non-200 status with a nil
transport error panics before producing any fallback. -/
theorem c4_fallback_writes_only_on_transport_error (net : Net) (ns provider domain : String) :
    (net.wellKnownGet = .transportErr →
      downloadVersionsFile net ns provider domain
        = .ok ⟨⟨[]⟩, defaultWellKnownData, true,
            [(wellKnownFallbackPath, .wellKnownJson defaultWellKnownData)]⟩) ∧
    (∀ body, net.wellKnownGet = .resp 200 false body → net.decodeWellKnown body = none →
      downloadVersionsFile net ns provider domain = .ok ⟨⟨[]⟩, defaultWellKnownData, true, []⟩) ∧
    (∀ status readErr body, net.wellKnownGet = .resp status readErr body → status ≠ 200 →
      downloadVersionsFile net ns provider domain = .panicked) := by
  refine ⟨?_, ?_, ?_⟩
  · intro h
    unfold downloadVersionsFile
    rw [h]
  · intro body h hdec
    unfold downloadVersionsFile
    rw [h]
    simp [hdec]
  · intro status readErr body h hne
    unfold downloadVersionsFile
    rw [h]
    simp [hne]

/-- Witness for the amended C4 at concrete environments for each of the
three failure kinds. -/
theorem c4_fallback_writes_only_on_transport_error_witness :
    downloadVersionsFile errNet "exampleorg" "example" "registry.example.com"
      = .ok ⟨⟨[]⟩, defaultWellKnownData, true,
          [(wellKnownFallbackPath, .wellKnownJson defaultWellKnownData)]⟩ ∧
    downloadVersionsFile badBodyNet "exampleorg" "example" "registry.example.com"
      = .ok ⟨⟨[]⟩, defaultWellKnownData, true, []⟩ ∧
    downloadVersionsFile non200Net "exampleorg" "example" "registry.example.com" = .panicked :=
  ⟨(c4_fallback_writes_only_on_transport_error errNet "exampleorg" "example"
      "registry.example.com").1 rfl,
   (c4_fallback_writes_only_on_transport_error badBodyNet "exampleorg" "example"
      "registry.example.com").2.1 "not-json" rfl rfl,
   (c4_fallback_writes_only_on_transport_error non200Net "exampleorg" "example"
      "registry.example.com").2.2 404 false "" rfl (by decide)⟩

/-- C5: platform extraction strips everything from the first occurrence of
".zip" onward, splits the remaining stem on "_", and when at least 4 tokens
result takes token index 2 as os and token index 3 as arch; with fewer than
4 tokens the filename contributes no platform and no architecture file, and
processing of the remaining manifest entries continues unchanged (no
abort); in particular README.txt is skipped non-fatally. -/
theorem c5_extraction_and_nonfatal_skip :
    (∀ fileName, (stemTokens fileName).length < 4 → extractPlatform fileName = none) ∧
    (∀ fileName, 4 ≤ (stemTokens fileName).length →
      extractPlatform fileName
        = some ⟨(stemTokens fileName).getD 2 "", (stemTokens fileName).getD 3 ""⟩) ∧
    (∀ checksum fileName rest, extractPlatform fileName = none →
      buildPlatforms ((checksum, fileName) :: rest) = buildPlatforms rest) ∧
    (∀ ns provider repoName version gpgFingerprint domain wk armor checksum fileName rest,
      extractPlatform fileName = none →
      archFiles ns provider repoName version gpgFingerprint domain wk armor
          ((checksum, fileName) :: rest)
        = archFiles ns provider repoName version gpgFingerprint domain wk armor rest) ∧
    extractPlatform "README.txt" = none := by
  refine ⟨?_, ?_, ?_, ?_, by decide⟩
  · intro fn h
    simp [extractPlatform, h]
  · intro fn h
    have hn : ¬ (stemTokens fn).length < 4 := by omega
    simp [extractPlatform, hn]
  · intro checksum fn rest h
    rw [buildPlatforms_eq_filterMap, buildPlatforms_eq_filterMap, List.filterMap_cons]
    simp [h]
  · intro ns provider repoName version gpgFingerprint domain wk armor checksum fn rest h
    rw [archFiles_eq_filterMap, archFiles_eq_filterMap, List.filterMap_cons]
    simp [archEmit, h]

/-- Witness for C5: README.txt has a single stem token and is skipped while
the following well-formed entry still produces its platform; a conforming
name yields os linux and arch amd64. -/
theorem c5_extraction_and_nonfatal_skip_witness :
    (stemTokens "README.txt").length < 4 ∧
    extractPlatform "README.txt" = none ∧
    4 ≤ (stemTokens "terraform-provider-example_1.0.0_linux_amd64.zip").length ∧
    extractPlatform "terraform-provider-example_1.0.0_linux_amd64.zip"
      = some ⟨"linux", "amd64"⟩ ∧
    buildPlatforms
        [("b", "README.txt"), ("a", "terraform-provider-example_1.0.0_linux_amd64.zip")]
      = buildPlatforms [("a", "terraform-provider-example_1.0.0_linux_amd64.zip")] := by
  refine ⟨by decide, c5_extraction_and_nonfatal_skip.1 "README.txt" (by decide), by decide,
    ?_, c5_extraction_and_nonfatal_skip.2.2.1 "b" "README.txt" _
      (c5_extraction_and_nonfatal_skip.1 "README.txt" (by decide))⟩
  have h := c5_extraction_and_nonfatal_skip.2.1
    "terraform-provider-example_1.0.0_linux_amd64.zip" (by decide)
  rw [h]
  decide

/-- C7 counterexample: on a run with an unreachable registry and a
well-formed one-line manifest for version 1.0.0, the merged version history
is written to release/v1/providers/exampleorg/example/versions, which is
not the claimed path carrying the version segment between the provider name
and the versions filename. -/
theorem c7_counterexample :
    createVersionsFile errNet "exampleorg" "example" "1.0.0" "registry.example.com"
        (some ["aaa  terraform-provider-example_1.0.0_linux_amd64.zip"])
      = .ok ⟨defaultWellKnownData,
          [(wellKnownFallbackPath, .wellKnownJson defaultWellKnownData),
           ("release/v1/providers/exampleorg/example/versions",
            .versionsJson ⟨[⟨"1.0.0", ["4.0", "5.1"], [⟨"linux", "amd64"⟩]⟩]⟩)],
          false⟩ ∧
    ("release/v1/providers/exampleorg/example/versions" : String)
      ≠ "release/v1/providers/exampleorg/example/1.0.0/versions" :=
  ⟨by decide, by decide⟩

/-- C7 as amended: the merged version-history document is written to
release + providersPath + namespace + "/" + providerName + "/versions",
with no version segment in the path, for every successful run. -/
theorem c7_versions_path_has_no_version_segment (net : Net)
    (ns provider version domain : String) (lines : List String)
    (dvf : DVFOut) (rows : List (String × String))
    (h1 : downloadVersionsFile net ns provider domain = .ok dvf)
    (h2 : getShaSumContents lines = .ok rows) :
    createVersionsFile net ns provider version domain (some lines)
      = .ok ⟨dvf.wellKnown,
          dvf.writes ++
            [("release" ++ dvf.wellKnown.providersV1 ++ ns ++ "/" ++ provider ++ "/versions",
              .versionsJson (mergeVersions dvf.versions (newVersionRecord version rows)))],
          false⟩ := by
  simp only [createVersionsFile, h1, h2, versionsFilePath]

/-- Witness for the amended C7 at a concrete run. -/
theorem c7_versions_path_has_no_version_segment_witness :
    createVersionsFile errNet "exampleorg" "example" "1.0.0" "registry.example.com"
        (some ["aaa  terraform-provider-example_1.0.0_linux_amd64.zip"])
      = .ok ⟨defaultWellKnownData,
          [(wellKnownFallbackPath, .wellKnownJson defaultWellKnownData)] ++
            [("release" ++ defaultWellKnownData.providersV1 ++ "exampleorg" ++ "/" ++ "example"
                ++ "/versions",
              .versionsJson (mergeVersions ⟨[]⟩ (newVersionRecord "1.0.0"
                [("aaa", "terraform-provider-example_1.0.0_linux_amd64.zip")])))],
          false⟩ :=
  c7_versions_path_has_no_version_segment errNet "exampleorg" "example" "1.0.0"
    "registry.example.com" ["aaa  terraform-provider-example_1.0.0_linux_amd64.zip"]
    ⟨⟨[]⟩, defaultWellKnownData, true,
      [(wellKnownFallbackPath, .wellKnownJson defaultWellKnownData)]⟩
    [("aaa", "terraform-provider-example_1.0.0_linux_amd64.zip")] rfl rfl

/-- C6: for every manifest entry recognized as a platform, the emitted
ArchitectureMetadata has downloadUrl equal to https plus domain plus
providersPath plus namespace, provider name, version, the download segment
and the filename; shasumsUrl pointing at the SHA256SUMS manifest under the
same version directory; shasumsSignatureUrl equal to shasumsUrl plus .sig;
and exactly one signing key whose keyId is the supplied GPG fingerprint,
whose asciiArmor is the key file lines each followed by a newline, and whose
trustSignature, source and sourceUrl are empty strings. -/
theorem c6_architecture_fields
    (ns provider repoName version gpgFingerprint domain : String) (wk : WellKnown)
    (gpgLines : List String) (shasum fileName : String) (plat : Platform)
    (h : extractPlatform fileName = some plat) :
    archEmit ns provider repoName version gpgFingerprint domain wk (gpgArmor gpgLines)
        (shasum, fileName)
      = some (archPath ns provider version wk plat,
          { protocols := ["4.0", "5.1"],
            os := plat.os,
            arch := plat.arch,
            filename := fileName,
            downloadUrl := "https://" ++ domain ++ wk.providersV1 ++ ns ++ "/" ++ provider
              ++ "/" ++ version ++ "/download/" ++ fileName,
            shasumsUrl := "https://" ++ domain ++ wk.providersV1 ++ ns ++ "/" ++ provider
              ++ "/" ++ version ++ "/" ++ repoName ++ "_" ++ version ++ "_SHA256SUMS",
            shasumsSignatureUrl := "https://" ++ domain ++ wk.providersV1 ++ ns ++ "/"
              ++ provider ++ "/" ++ version ++ "/" ++ repoName ++ "_" ++ version
              ++ "_SHA256SUMS" ++ ".sig",
            shasum := shasum,
            gpgPublicKeys := [⟨gpgFingerprint, gpgArmor gpgLines, "", "", ""⟩] }) ∧
    gpgArmor gpgLines = armorSpec gpgLines := by
  refine ⟨?_, gpgArmor_eq_armorSpec gpgLines⟩
  simp only [archEmit, h]
  simp [String.append_assoc, slash_download_merge]

/-- Witness for C6 at a concrete recognized manifest entry, with the three
URLs and the signing key evaluated. -/
theorem c6_architecture_fields_witness :
    extractPlatform "terraform-provider-example_1.0.0_linux_amd64.zip" = some ⟨"linux", "amd64"⟩ ∧
    (archEmit "exampleorg" "example" "terraform-provider-example" "1.0.0" "ABCDEF1234567890"
        "registry.example.com" defaultWellKnownData (gpgArmor ["keyline1", "keyline2"])
        ("aaa", "terraform-provider-example_1.0.0_linux_amd64.zip")).map
        (fun w => (w.2.downloadUrl, w.2.shasumsUrl, w.2.shasumsSignatureUrl, w.2.gpgPublicKeys))
      = some
          ("https://registry.example.com/v1/providers/exampleorg/example/1.0.0/download/terraform-provider-example_1.0.0_linux_amd64.zip",
           "https://registry.example.com/v1/providers/exampleorg/example/1.0.0/terraform-provider-example_1.0.0_SHA256SUMS",
           "https://registry.example.com/v1/providers/exampleorg/example/1.0.0/terraform-provider-example_1.0.0_SHA256SUMS.sig",
           [⟨"ABCDEF1234567890", "keyline1\nkeyline2\n", "", "", ""⟩]) := by
  have h : extractPlatform "terraform-provider-example_1.0.0_linux_amd64.zip"
      = some ⟨"linux", "amd64"⟩ := by decide
  refine ⟨h, ?_⟩
  rw [(c6_architecture_fields "exampleorg" "example" "terraform-provider-example" "1.0.0"
    "ABCDEF1234567890" "registry.example.com" defaultWellKnownData ["keyline1", "keyline2"]
    "aaa" "terraform-provider-example_1.0.0_linux_amd64.zip" ⟨"linux", "amd64"⟩ h).1]
  decide

/-- C8: the sequence of (os, arch) platforms recorded in the newly appended
VersionRecord equals, element for element and in the same order, the
sequence of (os, arch) targets for which createArchitectureFiles emits an
architecture metadata file, both loops applying the identical extraction
and skip rule to the same parsed manifest rows. -/
theorem c8_platforms_match_arch_writes
    (ns provider repoName version gpgFingerprint domain : String)
    (wk : WellKnown) (armor : String) (rows : List (String × String)) :
    (newVersionRecord version rows).platforms
      = (archFiles ns provider repoName version gpgFingerprint domain wk armor rows).map
          (fun w => { os := w.2.os, arch := w.2.arch }) := by
  show buildPlatforms rows = _
  rw [buildPlatforms_eq_filterMap, archFiles_eq_filterMap, List.map_filterMap]
  congr 1
  funext row
  cases h : extractPlatform row.2 with
  | none => simp [archEmit, h]
  | some q => simp [archEmit, h]

/-- C10: when two manifest entries yield the same (os, arch) platform, both
appear as separate platform entries in the new VersionRecord, their
architecture metadata documents are written to the same path (release +
providersPath + namespace, provider, version, download, os, arch), and the
content left at that path after all sequential writes is that of the last
such manifest entry: its shasum is the second checksum, its filename the
second filename and its downloadUrl ends in the second filename (last
writer wins). -/
theorem c10_same_platform_last_writer_wins
    (ns provider repoName version gpgFingerprint domain : String)
    (wk : WellKnown) (armor : String)
    (pre mid post : List (String × String)) (s1 f1 s2 f2 : String) (plat : Platform)
    (h1 : extractPlatform f1 = some plat) (h2 : extractPlatform f2 = some plat)
    (hpost : ∀ e ∈ post, ∀ q, extractPlatform e.2 = some q →
      archPath ns provider version wk q ≠ archPath ns provider version wk plat) :
    2 ≤ ((newVersionRecord version
          (pre ++ (s1, f1) :: mid ++ (s2, f2) :: post)).platforms.count plat) ∧
    (archEmit ns provider repoName version gpgFingerprint domain wk armor (s1, f1)).map Prod.fst
      = some (archPath ns provider version wk plat) ∧
    (archEmit ns provider repoName version gpgFingerprint domain wk armor (s2, f2)).map Prod.fst
      = some (archPath ns provider version wk plat) ∧
    finalContent
        (archFiles ns provider repoName version gpgFingerprint domain wk armor
          (pre ++ (s1, f1) :: mid ++ (s2, f2) :: post))
        (archPath ns provider version wk plat)
      = (archEmit ns provider repoName version gpgFingerprint domain wk armor (s2, f2)).map
          Prod.snd ∧
    (archEmit ns provider repoName version gpgFingerprint domain wk armor (s2, f2)).map
        (fun w => (w.2.shasum, w.2.filename, w.2.downloadUrl))
      = some (s2, f2,
          ("https://" ++ domain ++ (wk.providersV1 ++ ns ++ "/" ++ provider ++ "/" ++ version
            ++ "/")) ++ "download/" ++ f2) := by
  obtain ⟨w1, hw1⟩ : ∃ w,
      archEmit ns provider repoName version gpgFingerprint domain wk armor (s1, f1) = some w := by
    simp [archEmit, h1]
  obtain ⟨w2, hw2⟩ : ∃ w,
      archEmit ns provider repoName version gpgFingerprint domain wk armor (s2, f2) = some w := by
    simp [archEmit, h2]
  obtain ⟨q2, hq2, hw2p⟩ := archEmit_inv ns provider repoName version gpgFingerprint domain wk
    armor (s2, f2) w2 hw2
  have hq2e : q2 = plat := by
    have hthis : extractPlatform f2 = some q2 := hq2
    rw [h2] at hthis
    exact (Option.some.injEq _ _).mp hthis.symm
  rw [hq2e] at hw2p
  refine ⟨?_, ?_, ?_, ?_, ?_⟩
  · show 2 ≤ (buildPlatforms _).count plat
    rw [buildPlatforms_eq_filterMap]
    simp only [List.filterMap_append, List.filterMap_cons, h1, h2]
    simp [List.count_append, List.count_cons_self]
    omega
  · simp only [archEmit, h1]
    rfl
  · simp only [archEmit, h2]
    rfl
  · rw [archFiles_eq_filterMap]
    simp only [List.filterMap_append, List.filterMap_cons, hw1, hw2]
    unfold finalContent
    rw [getLast_filter_split (fun w => w.1 == archPath ns provider version wk plat) _ w2 _
      (by simp [hw2p]) ?_]
    intro u hu
    obtain ⟨e, he, hfe⟩ := List.mem_filterMap.mp hu
    obtain ⟨q, hq, hup⟩ := archEmit_inv ns provider repoName version gpgFingerprint domain wk
      armor e u hfe
    have hne := hpost e he q hq
    simp [hup, hne]
  · simp only [archEmit, h2]
    rfl

/-- Witness for C10: two manifest entries for the same linux amd64 platform;
the version record lists the platform twice and the file left at the shared
path carries the checksum and filename of the second entry. -/
theorem c10_same_platform_last_writer_wins_witness :
    extractPlatform "x_1.0.0_linux_amd64.zip" = some ⟨"linux", "amd64"⟩ ∧
    extractPlatform "y_9_linux_amd64.zip" = some ⟨"linux", "amd64"⟩ ∧
    2 ≤ ((newVersionRecord "1.0.0"
          [("aaa", "x_1.0.0_linux_amd64.zip"), ("bbb", "y_9_linux_amd64.zip")]).platforms.count
          ⟨"linux", "amd64"⟩) ∧
    (finalContent
        (archFiles "exampleorg" "example" "terraform-provider-example" "1.0.0" "FPR"
          "registry.example.com" defaultWellKnownData "armor"
          [("aaa", "x_1.0.0_linux_amd64.zip"), ("bbb", "y_9_linux_amd64.zip")])
        (archPath "exampleorg" "example" "1.0.0" defaultWellKnownData ⟨"linux", "amd64"⟩)).map
        (fun a => (a.shasum, a.filename))
      = some ("bbb", "y_9_linux_amd64.zip") := by
  have h1 : extractPlatform "x_1.0.0_linux_amd64.zip" = some ⟨"linux", "amd64"⟩ := by decide
  have h2 : extractPlatform "y_9_linux_amd64.zip" = some ⟨"linux", "amd64"⟩ := by decide
  have main := c10_same_platform_last_writer_wins "exampleorg" "example"
    "terraform-provider-example" "1.0.0" "FPR" "registry.example.com" defaultWellKnownData
    "armor" [] [] [] "aaa" "x_1.0.0_linux_amd64.zip" "bbb" "y_9_linux_amd64.zip"
    ⟨"linux", "amd64"⟩ h1 h2 (by simp)
  refine ⟨h1, h2, ?_, ?_⟩
  · have hcount := main.1
    simp only [List.nil_append, List.cons_append] at hcount
    exact hcount
  · have hfc := main.2.2.2.1
    simp only [List.nil_append, List.cons_append] at hfc
    rw [hfc]
    decide
